import Mathlib

/-!
Verification of the HTTP executor of electron-builder
(`packages/builder-util-runtime/src/httpExecutor.ts`).

Strings coming from JavaScript are modelled through their character
sequences (`String.data`); machine-level details (UTF-16 vs UTF-8) are
irrelevant for every property below.  Node's stream plumbing and the
crypto hash are external collaborators: the hash is a parameter
(`HashFn`), streams are modelled by explicit chunk lists, and `pipe`
follows Node's documented semantics (data and end are forwarded, errors
are not, and an erroring source does not end its destination).
-/

/-! ### JavaScript string primitives -/

/-- JS `s.startsWith(p)`: the characters of `p` are a prefix of those of `s`. -/
def jsStartsWith (s p : String) : Bool :=
  decide (p.data <+: s.data)

/-- JS `s.endsWith(p)`: the characters of `p` are a suffix of those of `s`. -/
def jsEndsWith (s p : String) : Bool :=
  decide (p.data <:+ s.data)

/-- JS `s.includes(p)`: the characters of `p` occur contiguously in `s`. -/
def jsIncludes (s p : String) : Bool :=
  decide (p.data <:+: s.data)

/-- JS `s.length` (for the strings at hand, code-unit and character counts agree). -/
def jsLength (s : String) : Nat :=
  s.data.length

/-- A list `[c]` sits contiguously inside `l` exactly when `c` is a member of `l`. -/
theorem single_chunk_mem_iff {α : Type} (c : α) (l : List α) : [c] <:+: l ↔ c ∈ l := by
  constructor
  · intro h
    exact h.sublist.subset (List.mem_singleton_self c)
  · intro h
    obtain ⟨l₁, l₂, rfl⟩ := List.append_of_mem h
    exact ⟨l₁, l₂, by simp⟩

theorem jsIncludes_single (s t : String) (c : Char) (ht : t.data = [c]) :
    jsIncludes s t = true ↔ c ∈ s.data := by
  rw [jsIncludes, ht, decide_eq_true_iff]
  exact single_chunk_mem_iff c s.data

/-! ### Header maps

JS objects used as header maps have unique keys; we model them as
association lists whose operations keep the first (unique) binding. -/

abbrev Headers := List (String × String)

def getHeader (headers : Headers) (key : String) : Option String :=
  (headers.find? fun p => decide (p.1 = key)).map (·.2)

def setHeader : Headers → String → String → Headers
  | [], key, value => [(key, value)]
  | (k, v) :: rest, key, value =>
    if k = key then (key, value) :: rest else (k, v) :: setHeader rest key value

def deleteHeader (headers : Headers) (key : String) : Headers :=
  headers.filter fun p => decide (p.1 ≠ key)

theorem getHeader_setHeader_self (headers : Headers) (key value : String) :
    getHeader (setHeader headers key value) key = some value := by
  induction headers with
  | nil => simp [getHeader, setHeader]
  | cons p rest ih =>
    by_cases h : p.1 = key
    · simp [getHeader, setHeader, h, List.find?]
    · simpa [getHeader, setHeader, h, List.find?] using ih

theorem getHeader_setHeader_ne (headers : Headers) (key value other : String)
    (h : other ≠ key) :
    getHeader (setHeader headers key value) other = getHeader headers other := by
  induction headers with
  | nil => simp [getHeader, setHeader, List.find?, Ne.symm h]
  | cons p rest ih =>
    obtain ⟨k, v⟩ := p
    by_cases hp : k = key
    · subst hp
      simp [getHeader, setHeader, List.find?, Ne.symm h]
    · by_cases ho : k = other
      · subst ho
        simp [getHeader, setHeader, List.find?, hp]
      · simpa [getHeader, setHeader, List.find?, hp, ho] using ih

theorem getHeader_deleteHeader_self (headers : Headers) (key : String) :
    getHeader (deleteHeader headers key) key = none := by
  induction headers with
  | nil => simp [getHeader, deleteHeader]
  | cons p rest ih =>
    by_cases h : p.1 = key
    · simpa [getHeader, deleteHeader, h, List.filter] using ih
    · simp only [deleteHeader, List.filter] at ih ⊢
      simpa [getHeader, h, List.find?] using ih

/-! ### Request options (the mutable `RequestOptions` record of Node's `http`) -/

structure RequestOptions where
  protocol : Option String
  hostname : Option String
  port : Option String
  path : Option String
  method : Option String
  headers : Option Headers
deriving DecidableEq, Repr

/-- Result of `url.parse` / `new URL` on an URL string; only the fields the
source reads are modelled. -/
structure ParsedUrl where
  protocol : Option String
  hostname : Option String
  port : Option String
  path : Option String
deriving DecidableEq, Repr

/-- The `process.versions.electron != null` test of the source depends on the
runtime; it is threaded through as the flag `isElectron`. -/
def configureRequestOptions (isElectron : Bool) (options : RequestOptions)
    (token : Option String) (method : Option String) : RequestOptions :=
  let options := match method with
    | some m => { options with method := some m }
    | none => options
  let headers := options.headers.getD []
  let headers := match token with
    | some t => setHeader headers "authorization"
        (if jsStartsWith t "Basic" then t else "token " ++ t)
    | none => headers
  let headers := if getHeader headers "User-Agent" = none
    then setHeader headers "User-Agent" "electron-builder" else headers
  let headers := if (method = none ∨ method = some "GET") ∨ getHeader headers "Cache-Control" = none
    then setHeader headers "Cache-Control" "no-cache" else headers
  let options := { options with headers := some headers }
  if options.protocol = none ∧ isElectron = true
    then { options with protocol := some "https:" } else options

/-- The source parses the URL string with `url.parse`; the parse result is
passed in directly as a `ParsedUrl`. -/
def configureRequestOptionsFromUrl (isElectron : Bool) (parsedUrl : ParsedUrl)
    (options : RequestOptions) : RequestOptions :=
  let options := { options with
    protocol := parsedUrl.protocol
    hostname := parsedUrl.hostname }
  let options := match parsedUrl.port with
    | none => if options.port ≠ none then { options with port := none } else options
    | some p => { options with port := some p }
  let options := { options with path := parsedUrl.path }
  configureRequestOptions isElectron options none none

/-- Static `HttpExecutor.prepareRedirectUrlOptions`; the `new URL(redirectUrl)`
of the source parses the same URL string, so it receives the same
`ParsedUrl`. -/
def prepareRedirectUrlOptions (isElectron : Bool) (redirectUrl : ParsedUrl)
    (options : RequestOptions) : RequestOptions :=
  let newOptions := configureRequestOptionsFromUrl isElectron redirectUrl options
  match newOptions.headers with
  | some hs =>
    match getHeader hs "authorization" with
    | some auth =>
      if jsStartsWith auth "token" &&
          (match redirectUrl.hostname with
           | some h => jsEndsWith h ".amazonaws.com"
           | none => false) then
        { newOptions with headers := some (deleteHeader hs "authorization") }
      else newOptions
    | none => newOptions
  | none => newOptions

/-- With no token and no method argument (the way every redirect rebuild calls
it) `configureRequestOptions` defaults the `User-Agent` header when absent,
unconditionally sets `Cache-Control` to `no-cache` (the `method == null`
disjunct holds), and defaults a missing protocol only under Electron. -/
theorem configureRequestOptions_no_token (isElectron : Bool) (options : RequestOptions) :
    configureRequestOptions isElectron options none none =
      { options with
        protocol := if options.protocol = none ∧ isElectron = true
          then some "https:" else options.protocol
        headers := some (setHeader
          (if getHeader (options.headers.getD []) "User-Agent" = none
            then setHeader (options.headers.getD []) "User-Agent" "electron-builder"
            else options.headers.getD []) "Cache-Control" "no-cache") } := by
  unfold configureRequestOptions
  simp only []
  rw [if_pos (Or.inl (Or.inl (by trivial)))]
  by_cases hp : options.protocol = none ∧ isElectron = true
  · rw [if_pos hp, if_pos hp]
  · rw [if_neg hp, if_neg hp]

/-! ### Redirect chains

A logical operation is driven against a simulated chain of responses: hop
`i` of the chain is the response the transport delivers to the `i`-th
issued request.  Only the fields the redirect logic reads are modelled;
the `Location` header value is carried as its parse result. -/

structure SimResponse where
  statusCode : Nat
  location : Option ParsedUrl
deriving DecidableEq, Repr

inductive DownloadOutcome
  | reachedPipes
  | statusError (code : Nat)
  | tooManyRedirects
  | chainExhausted
deriving DecidableEq, Repr

/-- Redirect-following part of `HttpExecutor.doDownload`
(httpExecutor.ts:186-212).  The recursive call at line 196 passes
`redirectCount++`, whose value is the counter *before* the increment, so the
callee receives the unchanged counter; the embedding reproduces that. -/
def doDownload (maxRedirects : Nat) (isElectron : Bool) :
    List SimResponse → RequestOptions → Nat → DownloadOutcome
  | [], _, _ => .chainExhausted
  | r :: rest, requestOptions, redirectCount =>
    if 400 ≤ r.statusCode then .statusError r.statusCode
    else match r.location with
      | some redirectUrl =>
        if redirectCount < maxRedirects then
          doDownload maxRedirects isElectron rest
            (prepareRedirectUrlOptions isElectron redirectUrl requestOptions) redirectCount
        else .tooManyRedirects
      | none => .reachedPipes

inductive ApiOutcome
  | notFound
  | noContent
  | tooManyRedirects
  | resolvedBody
  | httpStatusError (code : Nat)
  | chainExhausted
deriving DecidableEq, Repr

/-- Classification part of `HttpExecutor.handleResponse`
(httpExecutor.ts:117-181): 404 and 204 first, then `Location`; the
recursive `doApiRequest` call at line 149 passes `redirectCount`
unchanged. -/
def handleResponse (isElectron : Bool) :
    List SimResponse → RequestOptions → Nat → ApiOutcome
  | [], _, _ => .chainExhausted
  | r :: rest, options, redirectCount =>
    if r.statusCode = 404 then .notFound
    else if r.statusCode = 204 then .noContent
    else match r.location with
      | some redirectUrl =>
        if redirectCount > 10 then .tooManyRedirects
        else handleResponse isElectron rest
          (prepareRedirectUrlOptions isElectron redirectUrl options) redirectCount
      | none => if 400 ≤ r.statusCode then .httpStatusError r.statusCode else .resolvedBody

def redirect302 : SimResponse :=
  { statusCode := 302
    location := some { protocol := some "https:", hostname := some "example.com",
                       port := none, path := some "/next" } }

def ok200 : SimResponse := { statusCode := 200, location := none }

def emptyOptions : RequestOptions :=
  { protocol := none, hostname := none, port := none, path := none,
    method := none, headers := none }

theorem doDownload_redirects_forever (n : Nat) :
    ∀ options, doDownload 10 false (List.replicate n redirect302 ++ [ok200]) options 0
      = .reachedPipes := by
  induction n with
  | zero => intro options; simp [doDownload, ok200]
  | succ n ih =>
    intro options
    rw [List.replicate_succ, List.cons_append]
    simp only [doDownload, redirect302]
    norm_num
    exact ih _

theorem handleResponse_redirects_forever (n : Nat) :
    ∀ options, handleResponse false (List.replicate n redirect302 ++ [ok200]) options 0
      = .resolvedBody := by
  induction n with
  | zero => intro options; simp [handleResponse, ok200]
  | succ n ih =>
    intro options
    rw [List.replicate_succ, List.cons_append]
    simp only [handleResponse, redirect302]
    norm_num
    exact ih _

/-- C1: the spec claims the hop counter is incremented at each redirect hop and
a chain of 11 consecutive redirects fails with TooManyRedirects after exactly
11 hops.  The code never advances the counter: `doDownload` recurses with the
value of `redirectCount++` before the increment and `handleResponse` passes
`redirectCount` unchanged, so an 11-redirect chain completes successfully and
a redirect chain of any length never fails with "too many redirects". -/
theorem redirect_counter_never_advances :
    doDownload 10 false (List.replicate 11 redirect302 ++ [ok200]) emptyOptions 0
      = DownloadOutcome.reachedPipes ∧
    handleResponse false (List.replicate 11 redirect302 ++ [ok200]) emptyOptions 0
      = ApiOutcome.resolvedBody ∧
    (∀ n : Nat,
      doDownload 10 false (List.replicate n redirect302 ++ [ok200]) emptyOptions 0
        = DownloadOutcome.reachedPipes) :=
  ⟨doDownload_redirects_forever 11 emptyOptions,
   handleResponse_redirects_forever 11 emptyOptions,
   fun n => doDownload_redirects_forever n emptyOptions⟩

/-- Full characterization of `configureRequestOptionsFromUrl`: URL fields are
installed (the port is deleted when the URL has none), the method is kept, and
the headers go through the no-token `configureRequestOptions` pass. -/
theorem configureRequestOptionsFromUrl_eq (isElectron : Bool) (url : ParsedUrl)
    (options : RequestOptions) :
    configureRequestOptionsFromUrl isElectron url options =
      { protocol := if url.protocol = none ∧ isElectron = true
          then some "https:" else url.protocol
        hostname := url.hostname
        port := url.port
        path := url.path
        method := options.method
        headers := some (setHeader
          (if getHeader (options.headers.getD []) "User-Agent" = none
            then setHeader (options.headers.getD []) "User-Agent" "electron-builder"
            else options.headers.getD []) "Cache-Control" "no-cache") } := by
  rcases url with ⟨up, uh, uport, upath⟩
  unfold configureRequestOptionsFromUrl
  cases uport with
  | none =>
    by_cases h : options.port = none
    · simp [h, configureRequestOptions_no_token]
    · simp [h, configureRequestOptions_no_token]
  | some p => simp [configureRequestOptions_no_token]

/-- The no-token header pass leaves the `authorization` binding untouched. -/
theorem getHeader_headerPass_authorization (hs : Headers) :
    getHeader (setHeader
      (if getHeader hs "User-Agent" = none
        then setHeader hs "User-Agent" "electron-builder" else hs)
      "Cache-Control" "no-cache") "authorization" = getHeader hs "authorization" := by
  rw [getHeader_setHeader_ne _ _ _ _ (by decide)]
  split
  · rw [getHeader_setHeader_ne _ _ _ _ (by decide)]
  · rfl

/-- C2: on a redirect rebuild, an `authorization` value starting with "token"
is dropped exactly when the redirect target hostname ends in
".amazonaws.com"; a redirect to any other hostname carries the value over
unchanged. -/
theorem prepareRedirectUrlOptions_authorization (isElectron : Bool) (url : ParsedUrl)
    (options : RequestOptions) (auth host : String)
    (hauth : getHeader (options.headers.getD []) "authorization" = some auth)
    (hhost : url.hostname = some host) :
    ((jsStartsWith auth "token" = true ∧ jsEndsWith host ".amazonaws.com" = true) →
      getHeader ((prepareRedirectUrlOptions isElectron url options).headers.getD [])
        "authorization" = none)
    ∧ (jsEndsWith host ".amazonaws.com" = false →
      getHeader ((prepareRedirectUrlOptions isElectron url options).headers.getD [])
        "authorization" = some auth) := by
  have hkeep : getHeader
      ((configureRequestOptionsFromUrl isElectron url options).headers.getD [])
      "authorization" = some auth := by
    rw [configureRequestOptionsFromUrl_eq]
    simpa [getHeader_headerPass_authorization] using hauth
  rw [configureRequestOptionsFromUrl_eq] at hkeep
  simp only [Option.getD_some] at hkeep
  unfold prepareRedirectUrlOptions
  rw [configureRequestOptionsFromUrl_eq]
  dsimp only
  rw [hkeep, hhost]
  dsimp only
  constructor
  · rintro ⟨hstart, hend⟩
    rw [hstart, hend]
    simpa using getHeader_deleteHeader_self _ "authorization"
  · intro hend
    rw [hend]
    simpa [Bool.and_false] using hkeep

theorem prepareRedirectUrlOptions_authorization_witness :
    getHeader ((prepareRedirectUrlOptions false
        ⟨some "https:", some "bucket.s3.amazonaws.com", none, some "/artifact"⟩
        ⟨some "https:", some "api.example.com", none, some "/release", some "GET",
          some [("authorization", "token XYZ")]⟩).headers.getD []) "authorization" = none ∧
    getHeader ((prepareRedirectUrlOptions false
        ⟨some "https:", some "other.example.com", none, some "/artifact"⟩
        ⟨some "https:", some "api.example.com", none, some "/release", some "GET",
          some [("authorization", "token XYZ")]⟩).headers.getD []) "authorization"
      = some "token XYZ" :=
  ⟨(prepareRedirectUrlOptions_authorization false _ _ "token XYZ" "bucket.s3.amazonaws.com"
      (by decide) rfl).1 ⟨by decide, by decide⟩,
   (prepareRedirectUrlOptions_authorization false _ _ "token XYZ" "other.example.com"
      (by decide) rfl).2 (by decide)⟩

/-! ### Digest transform

`createHash` is external crypto; the incremental hash state is the byte
sequence fed so far, and the final digest is an abstract function
`HashFn algorithm encoding bytes` of that sequence. -/

abbrev HashFn := String → String → List Nat → String

inductive DlError
  | sha2Required
  | sha2HeaderMismatch (expected actual : String)
  | checksumMismatch (algorithm expected actual : String)
  | streamNotFinished
deriving DecidableEq, Repr

structure DigestTransform where
  expected : String
  algorithm : String
  encoding : String
  fed : List Nat
  actual : Option String
  isValidateOnEnd : Bool
deriving DecidableEq, Repr

/-- Constructor `new DigestTransform(expected, algorithm, encoding)`
(httpExecutor.ts:264-268); `isValidateOnEnd` defaults to true. -/
def DigestTransform.create (expected algorithm encoding : String) : DigestTransform :=
  { expected := expected, algorithm := algorithm, encoding := encoding,
    fed := [], actual := none, isValidateOnEnd := true }

/-- `DigestTransform._transform` (httpExecutor.ts:271-274): the chunk is fed
into the running hash and passed through unmodified. -/
def DigestTransform.transformChunk (t : DigestTransform) (chunk : List Nat) :
    DigestTransform × List Nat :=
  ({ t with fed := t.fed ++ chunk }, chunk)

/-- Stream driver: deliver every chunk to `_transform` in order, collecting the
chunks pushed downstream. -/
def DigestTransform.feedAll (t : DigestTransform) :
    List (List Nat) → DigestTransform × List (List Nat)
  | [] => (t, [])
  | c :: cs =>
    let r := t.transformChunk c
    let rest := r.1.feedAll cs
    (rest.1, r.2 :: rest.2)

/-- `DigestTransform.validate` (httpExecutor.ts:293-303). -/
def DigestTransform.validate (t : DigestTransform) : Option DlError :=
  match t.actual with
  | none => some .streamNotFinished
  | some actual =>
    if actual ≠ t.expected
      then some (.checksumMismatch t.algorithm t.expected actual)
      else none

/-- `DigestTransform._flush` (httpExecutor.ts:277-291): finalize the digest,
then validate when `isValidateOnEnd`; a validation failure is passed to the
stream callback as the stage error. -/
def DigestTransform.flush (hash : HashFn) (t : DigestTransform) :
    DigestTransform × Option DlError :=
  let t := { t with actual := some (hash t.algorithm t.encoding t.fed) }
  if t.isValidateOnEnd then
    match t.validate with
    | some e => (t, some e)
    | none => (t, none)
  else (t, none)

theorem feedAll_eq (t : DigestTransform) (chunks : List (List Nat)) :
    t.feedAll chunks = ({ t with fed := t.fed ++ chunks.flatten }, chunks) := by
  induction chunks generalizing t with
  | nil => simp [DigestTransform.feedAll]
  | cons c cs ih =>
    simp [DigestTransform.feedAll, DigestTransform.transformChunk, ih]

/-- C8: every input chunk is passed through unmodified, the accumulated hash
input is exactly the concatenation of the chunks, two chunkings of the same
byte sequence finalize identically, and a transform whose expected digest is
the digest of the concatenated bytes finishes without error. -/
theorem digestTransform_chunking_invariance (hash : HashFn)
    (expected algorithm encoding : String) (chunks chunks' : List (List Nat))
    (hsame : chunks.flatten = chunks'.flatten) :
    ((DigestTransform.create expected algorithm encoding).feedAll chunks).2 = chunks ∧
    ((DigestTransform.create expected algorithm encoding).feedAll chunks).1.fed
      = chunks.flatten ∧
    DigestTransform.flush hash
        ((DigestTransform.create expected algorithm encoding).feedAll chunks).1
      = DigestTransform.flush hash
        ((DigestTransform.create expected algorithm encoding).feedAll chunks').1 ∧
    (hash algorithm encoding chunks.flatten = expected →
      (DigestTransform.flush hash
        ((DigestTransform.create expected algorithm encoding).feedAll chunks).1).2 = none) := by
  refine ⟨by simp [feedAll_eq], by simp [feedAll_eq, DigestTransform.create], ?_, ?_⟩
  · rw [feedAll_eq, feedAll_eq]
    simp [hsame]
  · intro hok
    rw [feedAll_eq]
    simp [DigestTransform.flush, DigestTransform.validate, DigestTransform.create, hok]

theorem digestTransform_chunking_invariance_witness :
    ((DigestTransform.create "d0" "sha512" "base64").feedAll [[1], [2, 3]]).2
      = [[1], [2, 3]] ∧
    ((DigestTransform.create "d0" "sha512" "base64").feedAll [[1], [2, 3]]).1.fed
      = [1, 2, 3] ∧
    DigestTransform.flush (fun _ _ _ => "d0")
        ((DigestTransform.create "d0" "sha512" "base64").feedAll [[1], [2, 3]]).1
      = DigestTransform.flush (fun _ _ _ => "d0")
        ((DigestTransform.create "d0" "sha512" "base64").feedAll [[1, 2], [3]]).1 ∧
    (DigestTransform.flush (fun _ _ _ => "d0")
        ((DigestTransform.create "d0" "sha512" "base64").feedAll [[1], [2, 3]]).1).2
      = none := by
  obtain ⟨h1, h2, h3, h4⟩ := digestTransform_chunking_invariance (fun _ _ _ => "d0")
    "d0" "sha512" "base64" [[1], [2, 3]] [[1, 2], [3]] (by decide)
  exact ⟨h1, h2, h3, h4 rfl⟩

/-- Encoding inference for an expected SHA-512 digest (httpExecutor.ts:350):
`sha512.length === 128 && !sha512.includes("+") && !sha512.includes("Z") &&
!sha512.includes("=") ? "hex" : "base64"`. -/
def sha512Encoding (sha512 : String) : String :=
  if (jsLength sha512 == 128) && !jsIncludes sha512 "+" && !jsIncludes sha512 "Z"
      && !jsIncludes sha512 "=" then "hex" else "base64"

/-- Direct re-implementation of the spec's length-and-character rule: exactly
128 characters and none of the characters `+`, `Z`, `=` means hex, anything
else base64. -/
def specLengthCharRule (s : String) : String :=
  if s.data.length = 128 ∧ '+' ∉ s.data ∧ 'Z' ∉ s.data ∧ '=' ∉ s.data
    then "hex" else "base64"

/-- C5: the source's encoding inference agrees with the direct
re-implementation of the spec's length-and-character check on every input. -/
theorem sha512Encoding_agrees_with_spec (s : String) :
    sha512Encoding s = specLengthCharRule s := by
  have h1 := jsIncludes_single s "+" '+' rfl
  have h2 := jsIncludes_single s "Z" 'Z' rfl
  have h3 := jsIncludes_single s "=" '=' rfl
  have hcond : ((jsLength s == 128) && !jsIncludes s "+" && !jsIncludes s "Z"
        && !jsIncludes s "=") = true
      ↔ (s.data.length = 128 ∧ '+' ∉ s.data ∧ 'Z' ∉ s.data ∧ '=' ∉ s.data) := by
    simp only [Bool.and_eq_true, Bool.not_eq_true', beq_iff_eq, jsLength, and_assoc,
      Bool.eq_false_iff, ne_eq, h1, h2, h3]
  unfold sha512Encoding specLengthCharRule
  by_cases h : s.data.length = 128 ∧ '+' ∉ s.data ∧ 'Z' ∉ s.data ∧ '=' ∉ s.data
  · rw [if_pos (hcond.mpr h), if_pos h]
  · rw [if_neg (fun hb => h (hcond.mp hb)), if_neg h]

/-! ### Download pipeline -/

structure DownloadOptions where
  sha2 : Option String
  sha512 : Option String
  hasOnProgress : Bool
deriving DecidableEq, Repr

/-- The response as the download pipeline reads it: the legacy checksum
header, the content length header, and the body as the chunk sequence the
socket delivers. -/
structure SimDownloadResponse where
  sha2Header : Option String
  contentLength : Option Nat
  bodyChunks : List (List Nat)
deriving DecidableEq, Repr

/-- `checkSha2` (httpExecutor.ts:306-319), structure preserved: the inner
`sha2Header == null` test is unreachable because the enclosing condition
already requires `sha2Header != null`. -/
def checkSha2 (sha2Header sha2 : Option String) : Option DlError × Bool :=
  if sha2Header ≠ none ∧ sha2 ≠ none then
    if sha2Header = none then (some .sha2Required, false)
    else if sha2Header ≠ sha2 then
      (some (.sha2HeaderMismatch (sha2.getD "") (sha2Header.getD "")), false)
    else (none, true)
  else (none, true)

inductive PipeStage
  | progress (total : Nat)
  | digestStage (t : DigestTransform)
  | fileOut
deriving DecidableEq, Repr

/-- Stage list assembled by `configurePipes` (httpExecutor.ts:340-357): an
optional progress stage, then at most one digest stage (SHA-512 wins over
SHA-256), then the destination file stream. -/
def buildStreams (options : DownloadOptions) (response : SimDownloadResponse) :
    List PipeStage :=
  let streams : List PipeStage := []
  let streams := if options.hasOnProgress then
      match response.contentLength with
      | some total => streams ++ [.progress total]
      | none => streams
    else streams
  let streams := match options.sha512 with
    | some sha512 =>
      streams ++ [.digestStage (DigestTransform.create sha512 "sha512" (sha512Encoding sha512))]
    | none => match options.sha2 with
      | some sha2 => streams ++ [.digestStage (DigestTransform.create sha2 "sha256" "hex")]
      | none => streams
  streams ++ [.fileOut]

def digestOf : PipeStage → Option DigestTransform
  | .digestStage t => some t
  | _ => none

/-- C6: at most one digest stage is ever assembled; when an expected SHA-512
value is supplied it is the single SHA-512 stage (even when a SHA-256 value is
also supplied), and when only a SHA-256 value is supplied it is the single
SHA-256 stage. -/
theorem at_most_one_digest_stage (options : DownloadOptions)
    (response : SimDownloadResponse) :
    ((buildStreams options response).filterMap digestOf).length ≤ 1 ∧
    (∀ s : String, options.sha512 = some s →
      (buildStreams options response).filterMap digestOf
        = [DigestTransform.create s "sha512" (sha512Encoding s)]) ∧
    (∀ s : String, options.sha512 = none → options.sha2 = some s →
      (buildStreams options response).filterMap digestOf
        = [DigestTransform.create s "sha256" "hex"]) := by
  obtain ⟨s2, s512, hp⟩ := options
  obtain ⟨hdr, cl, body⟩ := response
  refine ⟨?_, ?_, ?_⟩
  · cases s512 <;> cases s2 <;> cases hp <;> cases cl <;>
      simp [buildStreams, digestOf, List.filterMap_append]
  · intro s h
    cases s512 with
    | none => simp at h
    | some v =>
      obtain rfl : v = s := by injection h
      cases hp <;> cases cl <;> simp [buildStreams, digestOf, List.filterMap_append]
  · intro s h h'
    cases s512 with
    | some v => simp at h
    | none =>
      cases s2 with
      | none => simp at h'
      | some v =>
        obtain rfl : v = s := by injection h'
        cases hp <;> cases cl <;> simp [buildStreams, digestOf, List.filterMap_append]

theorem at_most_one_digest_stage_witness :
    (buildStreams { sha2 := some "aa", sha512 := some "bb", hasOnProgress := true }
        { sha2Header := none, contentLength := some 5, bodyChunks := [] }).filterMap digestOf
      = [DigestTransform.create "bb" "sha512" (sha512Encoding "bb")] ∧
    (buildStreams { sha2 := some "aa", sha512 := none, hasOnProgress := false }
        { sha2Header := none, contentLength := none, bodyChunks := [] }).filterMap digestOf
      = [DigestTransform.create "aa" "sha256" "hex"] :=
  ⟨(at_most_one_digest_stage _ _).2.1 "bb" rfl,
   (at_most_one_digest_stage _ _).2.2 "aa" rfl rfl⟩

/-- Observable outcome of one `configurePipes` run: the first value the
completion callback is invoked with (`none` = never invoked, `some none` =
success, `some (some e)` = failure `e`), how many times the destination
file stream's `close` ran, and the bytes that reached the destination. -/
structure PipeOutcome where
  callbackValue : Option (Option DlError)
  closeCount : Nat
  bytesWritten : List Nat
deriving DecidableEq, Repr

/-- `configurePipes` (httpExecutor.ts:335-372) run to completion of the
response stream.  `checkSha2` runs first and its failure returns before any
stage is wired.  The stages are piped source → … → fileOut; progress and
digest stages pass every chunk through, so the body bytes reach `fileOut` in
either case.  Per Node stream semantics `pipe` forwards data and end but not
errors: when the digest stage's `_flush` fails, `fileOut` is never ended, its
"finish" event never fires and the `fileOut.close(callback)` of line 369-371
never runs; the stage's "error" handler (line 361-365) invokes the callback
with the error unless the cancellation token is already cancelled.  On a clean
end `fileOut` finishes, `close` runs once and passes its result (success) to
the callback. -/
def configurePipes (hash : HashFn) (options : DownloadOptions)
    (response : SimDownloadResponse) (cancelled : Bool) : PipeOutcome :=
  let c := checkSha2 response.sha2Header options.sha2
  if c.2 = false then
    { callbackValue := some c.1, closeCount := 0, bytesWritten := [] }
  else
    match ((buildStreams options response).filterMap digestOf).head? with
    | none =>
      { callbackValue := some none, closeCount := 1,
        bytesWritten := response.bodyChunks.flatten }
    | some t =>
      let r := t.feedAll response.bodyChunks
      match (DigestTransform.flush hash r.1).2 with
      | some e =>
        { callbackValue := if cancelled then none else some (some e),
          closeCount := 0, bytesWritten := r.2.flatten }
      | none =>
        { callbackValue := some none, closeCount := 1, bytesWritten := r.2.flatten }

theorem checkSha2_none_sha2 (hdr : Option String) :
    checkSha2 hdr none = (none, true) := by
  simp [checkSha2]

theorem filterMap_digest_sha512 (s2 : Option String) (s : String) (hp : Bool)
    (response : SimDownloadResponse) :
    (buildStreams { sha2 := s2, sha512 := some s, hasOnProgress := hp } response).filterMap
        digestOf
      = [DigestTransform.create s "sha512" (sha512Encoding s)] := by
  cases hp <;> cases hcl : response.contentLength <;>
    simp [buildStreams, digestOf, List.filterMap_append, hcl]

/-- C3 (amended): when the streamed body does not hash to the expected SHA-512
digest and cancellation has not occurred, the completion callback is invoked
with the ChecksumMismatch error, but the destination stream's close is never
invoked (the digest stage's flush error does not end the piped destination),
even though every body byte already reached it. -/
theorem checksum_mismatch_reports_but_never_closes (hash : HashFn) (sha512 : String)
    (response : SimDownloadResponse) (hasProgress : Bool)
    (hmismatch : hash "sha512" (sha512Encoding sha512) response.bodyChunks.flatten ≠ sha512) :
    configurePipes hash { sha2 := none, sha512 := some sha512, hasOnProgress := hasProgress }
        response false =
      { callbackValue := some (some (DlError.checksumMismatch "sha512" sha512
          (hash "sha512" (sha512Encoding sha512) response.bodyChunks.flatten))),
        closeCount := 0,
        bytesWritten := response.bodyChunks.flatten } := by
  simp only [configurePipes, checkSha2_none_sha2, filterMap_digest_sha512, List.head?_cons,
    feedAll_eq]
  simp [DigestTransform.flush, DigestTransform.validate, DigestTransform.create, hmismatch]

theorem checksum_mismatch_never_closes_witness :
    configurePipes (fun _ _ _ => "actual0")
        { sha2 := none, sha512 := some "expected0", hasOnProgress := false }
        { sha2Header := none, contentLength := none, bodyChunks := [[1, 2], [3]] } false
      = { callbackValue := some (some (DlError.checksumMismatch "sha512" "expected0" "actual0")),
          closeCount := 0, bytesWritten := [1, 2, 3] } :=
  checksum_mismatch_reports_but_never_closes (fun _ _ _ => "actual0") "expected0"
    { sha2Header := none, contentLength := none, bodyChunks := [[1, 2], [3]] } false
    (by decide)

/-- C3 (counterexample to the claim as stated): a download with an expected
SHA-512 digest whose body hashes differently settles as ChecksumMismatch, yet
the destination sink's close is invoked zero times, not exactly once. -/
theorem checksum_mismatch_sink_counterexample :
    (configurePipes (fun _ _ _ => "mismatched")
        { sha2 := none, sha512 := some "expectedD", hasOnProgress := false }
        { sha2Header := none, contentLength := none, bodyChunks := [[4], [5, 6]] }
        false).callbackValue
      = some (some (DlError.checksumMismatch "sha512" "expectedD" "mismatched")) ∧
    (configurePipes (fun _ _ _ => "mismatched")
        { sha2 := none, sha512 := some "expectedD", hasOnProgress := false }
        { sha2Header := none, contentLength := none, bodyChunks := [[4], [5, 6]] }
        false).closeCount = 0 := by
  decide

/-- C7: the claim says a missing `X-Checksum-Sha2` header with a supplied
expected SHA-256 fails before any byte is written.  In the code the
missing-header branch of `checkSha2` is unreachable (its enclosing condition
already requires the header to be present), so the download proceeds, writes
every byte, and here completes successfully. -/
theorem missing_sha2_header_is_not_failure :
    checkSha2 none (some "cafebabe") = (none, true) ∧
    configurePipes (fun _ _ _ => "cafebabe")
        { sha2 := some "cafebabe", sha512 := none, hasOnProgress := false }
        { sha2Header := none, contentLength := none, bodyChunks := [[7], [8, 9]] }
        false
      = { callbackValue := some none, closeCount := 1, bytesWritten := [7, 8, 9] } := by
  decide

/-! ### Cancellation versus late errors

Modelled from the spec: the completion signal of one download is
single-settlement (it resolves or fails exactly once, never more than once),
and signalling the cancellation token marks it cancelled and settles the
signal as Cancelled.  The guard that swallows stage errors after cancellation
is from the source (httpExecutor.ts:361-365); request "error"/"aborted"
listeners (httpExecutor.ts:109-115) invoke the callback unconditionally, and
only single-settlement keeps them from overriding an earlier outcome. -/

inductive StageErrorKind
  | transport
  | checksum
  | other
deriving DecidableEq, Repr

inductive Completion
  | success
  | cancelled
  | failed (e : StageErrorKind)
deriving DecidableEq, Repr

structure SignalState where
  settled : Option Completion
  tokenCancelled : Bool
deriving DecidableEq, Repr

/-- First settlement wins; later settlements are ignored. -/
def settleSignal (s : SignalState) (c : Completion) : SignalState :=
  match s.settled with
  | none => { s with settled := some c }
  | some _ => s

inductive DownloadEvent
  | cancelRequested
  | stageError (e : StageErrorKind)
  | transportError (e : StageErrorKind)
deriving DecidableEq, Repr

def downloadStep (s : SignalState) : DownloadEvent → SignalState
  | .cancelRequested => settleSignal { s with tokenCancelled := true } .cancelled
  | .stageError e => if s.tokenCancelled then s else settleSignal s (.failed e)
  | .transportError e => settleSignal s (.failed e)

def runDownloadEvents (s : SignalState) (events : List DownloadEvent) : SignalState :=
  events.foldl downloadStep s

def initialSignal : SignalState := { settled := none, tokenCancelled := false }

theorem runDownloadEvents_settled (s : SignalState) (c : Completion)
    (h : s.settled = some c) (events : List DownloadEvent) :
    (runDownloadEvents s events).settled = some c := by
  induction events generalizing s with
  | nil => exact h
  | cons e rest ih =>
    rw [runDownloadEvents, List.foldl_cons]
    refine ih _ ?_
    cases e with
    | cancelRequested => simp [downloadStep, settleSignal, h]
    | stageError e' =>
      by_cases hc : s.tokenCancelled <;> simp [downloadStep, settleSignal, hc, h]
    | transportError e' => simp [downloadStep, settleSignal, h]

/-- C4: once cancellation has been signalled, any sequence of later
stream-stage or transport errors leaves the completion settled as Cancelled:
stage errors are swallowed by the cancellation guard and no late error can
re-settle the single-settlement signal as TransportError or
ChecksumMismatch. -/
theorem cancellation_wins_over_late_errors (events : List DownloadEvent) :
    (runDownloadEvents (downloadStep initialSignal .cancelRequested) events).settled
      = some Completion.cancelled :=
  runDownloadEvents_settled _ _ rfl events

/-! ### Diagnostic serialization -/

/-- Key test of the `JSON.stringify` replacer in `safeStringifyJson`
(httpExecutor.ts:402-409), in the source's evaluation order. -/
def shouldStrip (skippedNames : List String) (name : String) : Bool :=
  jsEndsWith name "authorization" || jsEndsWith name "Password" ||
  jsEndsWith name "PASSWORD" || jsEndsWith name "Token" ||
  jsIncludes name "password" || jsIncludes name "token" ||
  skippedNames.contains name

/-- `safeStringifyJson` applied to a flat string-valued object: the replacer
visits every key and substitutes the placeholder for matching names; nested
objects behave identically key by key. -/
def safeStringifyJson (data : List (String × String)) (skippedNames : List String) :
    List (String × String) :=
  data.map fun p =>
    (p.1, if shouldStrip skippedNames p.1 then "<stripped sensitive data>" else p.2)

/-- C9 (counterexample to the claim as stated): the claim requires
case-insensitive matching, so the keys "TOKEN" and "Authorization" would have
to be redacted; the code leaves both values intact. -/
theorem redaction_not_case_insensitive_counterexample :
    safeStringifyJson [("TOKEN", "secret1"), ("Authorization", "secret2")] []
      = [("TOKEN", "secret1"), ("Authorization", "secret2")] ∧
    ("secret1" : String) ≠ "<stripped sensitive data>" ∧
    ("secret2" : String) ≠ "<stripped sensitive data>" := by
  decide

/-- C9 (amended): serialization for diagnostics replaces the value of every
key whose name case-sensitively ends with "authorization", "Password",
"PASSWORD" or "Token", or contains "password" or "token", with the fixed
placeholder, and keeps the value of every other key; the matching is not
case-insensitive. -/
theorem redaction_exact_predicate (data : List (String × String)) :
    safeStringifyJson data []
      = data.map fun p =>
        (p.1, if jsEndsWith p.1 "authorization" || jsEndsWith p.1 "Password" ||
              jsEndsWith p.1 "PASSWORD" || jsEndsWith p.1 "Token" ||
              jsIncludes p.1 "password" || jsIncludes p.1 "token"
          then "<stripped sensitive data>" else p.2) := by
  simp [safeStringifyJson, shouldStrip]

/-- C10 (counterexample to the claim as stated): a redirect rebuild is claimed
to leave all headers other than the URL-derived fields unchanged, but the
rebuild runs the full `configureRequestOptions` pass, which overwrites an
existing `Cache-Control` header with "no-cache". -/
theorem cache_control_overwritten_counterexample :
    getHeader (((configureRequestOptionsFromUrl false
        { protocol := some "https:", hostname := some "example.com",
          port := none, path := some "/x" }
        { protocol := some "http:", hostname := some "old.example.com",
          port := some "8080", path := some "/old", method := some "GET",
          headers := some [("Cache-Control", "max-age=60")] }).headers).getD [])
      "Cache-Control" = some "no-cache" ∧
    (some "no-cache" : Option String) ≠ some "max-age=60" := by
  decide

/-- C10 (amended): a redirect rebuild takes protocol, hostname and path from
the redirect URL and sets the port from the URL, deleting it when the URL has
none; the method is unchanged and every header other than `User-Agent` and
`Cache-Control` is carried over unchanged; but `Cache-Control` is always set
to "no-cache" (overwriting any prior value) and `User-Agent` is defaulted to
"electron-builder" when absent (kept when present). -/
theorem configureRequestOptionsFromUrl_fields (isElectron : Bool) (url : ParsedUrl)
    (options : RequestOptions) (proto : String)
    (hproto : url.protocol = some proto) :
    (configureRequestOptionsFromUrl isElectron url options).protocol = some proto ∧
    (configureRequestOptionsFromUrl isElectron url options).hostname = url.hostname ∧
    (configureRequestOptionsFromUrl isElectron url options).port = url.port ∧
    (configureRequestOptionsFromUrl isElectron url options).path = url.path ∧
    (configureRequestOptionsFromUrl isElectron url options).method = options.method ∧
    (∀ k : String, k ≠ "User-Agent" → k ≠ "Cache-Control" →
      getHeader ((configureRequestOptionsFromUrl isElectron url options).headers.getD []) k
        = getHeader (options.headers.getD []) k) ∧
    getHeader ((configureRequestOptionsFromUrl isElectron url options).headers.getD [])
      "Cache-Control" = some "no-cache" ∧
    (getHeader (options.headers.getD []) "User-Agent" = none →
      getHeader ((configureRequestOptionsFromUrl isElectron url options).headers.getD [])
        "User-Agent" = some "electron-builder") ∧
    (∀ ua : String, getHeader (options.headers.getD []) "User-Agent" = some ua →
      getHeader ((configureRequestOptionsFromUrl isElectron url options).headers.getD [])
        "User-Agent" = some ua) := by
  rw [configureRequestOptionsFromUrl_eq]
  refine ⟨by simp [hproto], rfl, rfl, rfl, rfl, ?_, ?_, ?_, ?_⟩
  · intro k hua hcc
    simp only [Option.getD_some]
    rw [getHeader_setHeader_ne _ _ _ _ hcc]
    split
    · rw [getHeader_setHeader_ne _ _ _ _ hua]
    · rfl
  · simp only [Option.getD_some]
    exact getHeader_setHeader_self _ _ _
  · intro h
    simp only [Option.getD_some]
    rw [getHeader_setHeader_ne _ _ _ _ (by decide), if_pos h]
    exact getHeader_setHeader_self _ _ _
  · intro ua h
    simp only [Option.getD_some]
    rw [getHeader_setHeader_ne _ _ _ _ (by decide), if_neg (by simp [h])]
    exact h

theorem configureRequestOptionsFromUrl_fields_witness :
    (configureRequestOptionsFromUrl false
        { protocol := some "https:", hostname := some "new.example.com",
          port := none, path := some "/y" }
        { protocol := some "http:", hostname := some "api.example.com",
          port := some "8080", path := some "/old", method := some "POST",
          headers := some [("authorization", "token a"), ("User-Agent", "custom")] }).port
      = none ∧
    getHeader ((configureRequestOptionsFromUrl false
        { protocol := some "https:", hostname := some "new.example.com",
          port := none, path := some "/y" }
        { protocol := some "http:", hostname := some "api.example.com",
          port := some "8080", path := some "/old", method := some "POST",
          headers := some [("authorization", "token a"), ("User-Agent", "custom")] }).headers.getD [])
      "authorization" = some "token a" ∧
    getHeader ((configureRequestOptionsFromUrl false
        { protocol := some "https:", hostname := some "new.example.com",
          port := none, path := some "/y" }
        { protocol := some "http:", hostname := some "api.example.com",
          port := some "8080", path := some "/old", method := some "POST",
          headers := some [("authorization", "token a"), ("User-Agent", "custom")] }).headers.getD [])
      "User-Agent" = some "custom" := by
  obtain ⟨-, -, hport, -, -, hframe, -, -, hua⟩ :=
    configureRequestOptionsFromUrl_fields false
      { protocol := some "https:", hostname := some "new.example.com",
        port := none, path := some "/y" }
      { protocol := some "http:", hostname := some "api.example.com",
        port := some "8080", path := some "/old", method := some "POST",
        headers := some [("authorization", "token a"), ("User-Agent", "custom")] }
      "https:" rfl
  exact ⟨hport, (hframe "authorization" (by decide) (by decide)).trans (by decide),
    hua "custom" (by decide)⟩
